import Mathlib

/-!
Shallow embedding of the trade-tracking dashboard (src/app.py).

We embed the trade lifecycle function `trade_status`, the per-trade
status-update step of the main loop (lines 134-139 together with
`update_status` and `close_trade`), and the analytics replay over closed
trades (`position_size`, `r_multiple` and the loop at lines 201-218).

Prices, capital and timestamps are modelled as rationals (the source
uses Python/numpy floats; the decimal values exercised below are exact
in both models).  Python's `int(x)` conversion truncates toward zero,
and Python's `round(x, 2)` rounds half to even at two decimal places;
both are modelled explicitly.  Division by zero in `r_multiple`
(numpy float division, which yields inf/nan without raising) is modelled
by Lean's total division, whose value at a zero denominator no claim
depends on.
-/

namespace Track

/-- `START_CAPITAL = 100000` (app.py line 15). -/
def START_CAPITAL : ℚ := 100000

/-- `RISK_PER_TRADE = 0.01` (app.py line 16). -/
def RISK_PER_TRADE : ℚ := 1/100

/-- Python `int(x)` on a real value: truncation toward zero. -/
def pyInt (q : ℚ) : ℤ := if 0 ≤ q then ⌊q⌋ else ⌈q⌉

/-- Rounding half to even to an integer, Python's rounding mode. -/
def roundHalfEven (q : ℚ) : ℤ :=
  if q - ⌊q⌋ < 1/2 then ⌊q⌋
  else if 1/2 < q - ⌊q⌋ then ⌊q⌋ + 1
  else if Even ⌊q⌋ then ⌊q⌋ else ⌊q⌋ + 1

/-- Python `round(x, 2)`: round half to even at two decimal places. -/
def pyRound2 (q : ℚ) : ℚ := (roundHalfEven (q * 100) : ℚ) / 100

/-- One row of the `trades` table (app.py lines 24-36): id, symbol, the
buy / stoploss / target levels, the stored status string, the last traded
price `ltp` (NULL until the first refresh), and the created / closed
timestamps (modelled as rational day counts; `closed` is NULL until the
trade is closed). -/
structure TradeRow where
  id : Nat
  symbol : String
  buy : ℚ
  sl : ℚ
  target : ℚ
  status : String
  ltp : Option ℚ
  created : ℚ
  closed : Option ℚ
deriving DecidableEq, Repr

/-- `trade_status` (app.py lines 83-90):

    def trade_status(r):
        if r.ltp is None or r.ltp < r.buy:
            return "Pending"
        if r.ltp >= r.target:
            return "Target Hit"
        if r.ltp <= r.sl:
            return "Stoploss Hit"
        return "Active"
-/
def trade_status (r : TradeRow) : String :=
  match r.ltp with
  | none => "Pending"
  | some p =>
    if p < r.buy then "Pending"
    else if r.target ≤ p then "Target Hit"
    else if p ≤ r.sl then "Stoploss Hit"
    else "Active"

/-- One iteration of the status-update loop (app.py lines 134-139) acting
on a single row: recompute the status, persist it if it changed
(`update_status`), and stamp `closed` with the current time
(`close_trade`, lines 69-71) when the new status is terminal.

    s = trade_status(r)
    if s != r.status:
        update_status(r.id, s)
        if s in ["Target Hit", "Stoploss Hit"]:
            close_trade(r.id)
-/
def statusStep (now : ℚ) (r : TradeRow) : TradeRow :=
  let s := trade_status r
  if s ≠ r.status then
    let r1 := { r with status := s }
    if s = "Target Hit" ∨ s = "Stoploss Hit" then { r1 with closed := some now }
    else r1
  else r

/-- `position_size` (app.py lines 92-95):

    def position_size(capital, buy, sl):
        risk = capital * RISK_PER_TRADE
        per_share = abs(buy - sl)
        return int(risk / per_share) if per_share else 0
-/
def position_size (capital buy sl : ℚ) : ℤ :=
  let risk := capital * RISK_PER_TRADE
  let per_share := |buy - sl|
  if per_share ≠ 0 then pyInt (risk / per_share) else 0

/-- `r_multiple` (app.py lines 97-98):

    def r_multiple(entry, exit, sl):
        return round((exit - entry) / (entry - sl), 2)

At `entry = sl` the numpy float division yields inf/nan without raising;
here Lean's total division gives 0.  No claim depends on that value. -/
def r_multiple (entry ex sl : ℚ) : ℚ := pyRound2 ((ex - entry) / (entry - sl))

/-- The exit price of a closed trade (app.py line 206):
`r.target if r.status == "Target Hit" else r.sl`. -/
def exit_price (r : TradeRow) : ℚ :=
  if r.status = "Target Hit" then r.target else r.sl

/-- The raw (un-rounded) realized P&L of one replayed trade at running
capital `capital` (app.py lines 205-207): `(exit_price - r.buy) * qty`. -/
def tradePnl (capital : ℚ) (r : TradeRow) : ℚ :=
  (exit_price r - r.buy) * (position_size capital r.buy r.sl : ℚ)

/-- One record appended by the replay loop (app.py lines 210-218):
Symbol, Qty, Exit, PnL (rounded to 2 dp), Equity (post-trade capital
rounded to 2 dp), R and holding days. -/
structure PerfRec where
  symbol : String
  qty : ℤ
  exitP : ℚ
  pnl : ℚ
  equity : ℚ
  rMult : ℚ
  days : ℤ
deriving DecidableEq, Repr

/-- The record built for one trade at running capital `capital`
(app.py lines 205-218).  `Days` is the whole-day component of
`r.closed - r.created` (pandas `Timedelta.days` floors). -/
def mkRecord (capital : ℚ) (r : TradeRow) : PerfRec :=
  let qty := position_size capital r.buy r.sl
  let ex := exit_price r
  let pnl := (ex - r.buy) * (qty : ℚ)
  { symbol := r.symbol
    qty := qty
    exitP := ex
    pnl := pyRound2 pnl
    equity := pyRound2 (capital + pnl)
    rMult := r_multiple r.buy ex r.sl
    days := ⌊r.closed.getD 0 - r.created⌋ }

/-- The replay loop (app.py lines 201-218): starting from `capital`,
process the closed trades in order, appending one `PerfRec` each and
compounding `capital += pnl`; returns the final capital and the records. -/
def replay (capital : ℚ) : List TradeRow → ℚ × List PerfRec
  | [] => (capital, [])
  | r :: rs =>
    let out := replay (capital + tradePnl capital r) rs
    (out.1, mkRecord capital r :: out.2)

/-- The running-capital component of the replay loop alone. -/
def replayCap (capital : ℚ) : List TradeRow → ℚ
  | [] => capital
  | r :: rs => replayCap (capital + tradePnl capital r) rs

/-- The sequence of raw per-trade `pnl` values produced by the replay
loop (the values added to `capital` at app.py line 208). -/
def replayPnls (capital : ℚ) : List TradeRow → List ℚ
  | [] => []
  | r :: rs => tradePnl capital r :: replayPnls (capital + tradePnl capital r) rs

/-- Insertion into a list kept ascending by the `closed` timestamp. -/
def insertByClosed (r : TradeRow) : List TradeRow → List TradeRow
  | [] => [r]
  | x :: xs =>
    if r.closed.getD 0 < x.closed.getD 0 then r :: x :: xs
    else x :: insertByClosed r xs

/-- A sort of the rows ascending by `closed`, modelling
`closed.sort_values("closed")` (app.py line 204).  Note: the source uses
pandas' default sort kind (quicksort), which pandas documents as not
stable, so the source fixes no particular order among rows with equal
`closed`; this model's insertion sort is one ascending order.  No claim
proved below depends on the order of tied rows. -/
def sortByClosed (l : List TradeRow) : List TradeRow :=
  l.foldr insertByClosed []

/-- The analytics tab's replay (app.py lines 193-218): keep the rows
whose status is terminal (`df.status.isin(["Target Hit","Stoploss Hit"])`),
sort them ascending by `closed`, and run the replay loop from
`START_CAPITAL`. -/
def analyticsReplay (df : List TradeRow) : ℚ × List PerfRec :=
  let closed := df.filter fun r => r.status = "Target Hit" ∨ r.status = "Stoploss Hit"
  replay START_CAPITAL (sortByClosed closed)

/-- A closed trade whose target of 0 lies far below its buy price; its
replayed loss drives the running capital negative. -/
def c6row1 : TradeRow := ⟨1, "A", 100, 199/2, 0, "Target Hit", some 120, 0, some 1⟩

/-- A closed trade replayed after `c6row1`, i.e. at negative running
capital, where truncation toward zero and the floor differ. -/
def c6row2 : TradeRow := ⟨2, "B", 100, 97, 120, "Target Hit", some 120, 0, some 2⟩

/-- The spec's compounding example: buy 100, stoploss 90, target 120,
closed with "Target Hit". -/
def c6exRow : TradeRow := ⟨1, "TCS", 100, 90, 120, "Target Hit", some 120, 0, some 1⟩

/-- A closed trade with `buy = sl` (zero per-share risk). -/
def c7row : TradeRow := ⟨7, "G", 50, 50, 60, "Stoploss Hit", some 45, 0, some 4⟩

/- ------------------------------------------------------------------ -/
/- Helper lemmas.                                                      -/
/- ------------------------------------------------------------------ -/

lemma statusStep_status (now : ℚ) (r : TradeRow) :
    (statusStep now r).status = trade_status r := by
  simp only [statusStep]
  split
  · split <;> rfl
  · next h =>
    rw [not_not] at h
    exact h.symm

lemma statusStep_of_eq (now : ℚ) (r : TradeRow) (h : trade_status r = r.status) :
    statusStep now r = r := by
  simp only [statusStep]
  rw [if_neg (not_not_intro h)]

lemma replay_fst (capital : ℚ) (ts : List TradeRow) :
    (replay capital ts).1 = replayCap capital ts := by
  induction ts generalizing capital with
  | nil => rfl
  | cons r rs ih =>
    simp only [replay, replayCap]
    exact ih _

lemma replay_length (capital : ℚ) (ts : List TradeRow) :
    (replay capital ts).2.length = ts.length := by
  induction ts generalizing capital with
  | nil => rfl
  | cons r rs ih =>
    simp only [replay, List.length_cons]
    rw [ih]

lemma replay_append (capital : ℚ) (l1 l2 : List TradeRow) :
    (replay capital (l1 ++ l2)).2 =
      (replay capital l1).2 ++ (replay (replayCap capital l1) l2).2 := by
  induction l1 generalizing capital with
  | nil => rfl
  | cons r rs ih =>
    simp only [List.cons_append, replay, replayCap, List.append_eq]
    rw [ih]

lemma replayPnls_take (capital : ℚ) (ts : List TradeRow) (i : ℕ) :
    replayPnls capital (ts.take i) = (replayPnls capital ts).take i := by
  induction ts generalizing capital i with
  | nil => simp [replayPnls]
  | cons r rs ih =>
    cases i with
    | zero => rfl
    | succ n =>
      simp only [List.take_succ_cons, replayPnls]
      rw [ih]

lemma replayCap_eq_sum (capital : ℚ) (ts : List TradeRow) :
    replayCap capital ts = capital + (replayPnls capital ts).sum := by
  induction ts generalizing capital with
  | nil => simp [replayCap, replayPnls]
  | cons r rs ih =>
    simp only [replayCap, replayPnls, List.sum_cons]
    rw [ih]
    ring

lemma mkRecord_qty (capital : ℚ) (r : TradeRow) :
    (mkRecord capital r).qty = position_size capital r.buy r.sl := rfl

lemma pyRound2_zero : pyRound2 0 = 0 := by
  norm_num [pyRound2, roundHalfEven]

lemma replay_step_pos (c : ℚ) (r : TradeRow) (hc : 0 < c) (h1 : r.sl < r.buy)
    (h2 : r.buy < r.target) : 0 < c + tradePnl c r := by
  have hper : (0:ℚ) < r.buy - r.sl := by linarith
  have hrisk : (0:ℚ) < RISK_PER_TRADE := by norm_num [RISK_PER_TRADE]
  have habs : |r.buy - r.sl| = r.buy - r.sl := abs_of_pos hper
  have hne : |r.buy - r.sl| ≠ 0 := by
    rw [habs]
    exact ne_of_gt hper
  have hx0 : 0 ≤ c * RISK_PER_TRADE / |r.buy - r.sl| := by
    rw [habs]
    exact (div_pos (mul_pos hc hrisk) hper).le
  have hps : position_size c r.buy r.sl = ⌊c * RISK_PER_TRADE / |r.buy - r.sl|⌋ := by
    simp only [position_size, pyInt]
    rw [if_pos hne, if_pos hx0]
  simp only [tradePnl, hps]
  set q : ℤ := ⌊c * RISK_PER_TRADE / |r.buy - r.sl|⌋ with hq
  have hfl : (q : ℚ) ≤ c * RISK_PER_TRADE / |r.buy - r.sl| := Int.floor_le _
  have hfl0 : (0:ℚ) ≤ (q : ℚ) := by
    exact_mod_cast Int.floor_nonneg.mpr hx0
  have hmul : (r.buy - r.sl) * (c * RISK_PER_TRADE / |r.buy - r.sl|) = c / 100 := by
    rw [habs]
    simp only [RISK_PER_TRADE]
    field_simp
    ring
  by_cases hT : r.status = "Target Hit"
  · simp only [exit_price, if_pos hT]
    have hnn : 0 ≤ (r.target - r.buy) * (q : ℚ) := mul_nonneg (by linarith) hfl0
    linarith
  · simp only [exit_price, if_neg hT]
    have h3 : (r.buy - r.sl) * (q : ℚ) ≤ (r.buy - r.sl) * (c * RISK_PER_TRADE / |r.buy - r.sl|) :=
      mul_le_mul_of_nonneg_left hfl hper.le
    rw [hmul] at h3
    have h6 : (r.sl - r.buy) * (q : ℚ) = -((r.buy - r.sl) * (q : ℚ)) := by ring
    linarith

/- ------------------------------------------------------------------ -/
/- Claims.                                                             -/
/- ------------------------------------------------------------------ -/

/-- C1, counterexample: a trade whose stored status is the terminal
"Target Hit" but whose `ltp` is NULL is mapped by `trade_status` to
"Pending", not to its terminal status — terminal states are not
absorbing in `trade_status`. -/
theorem C1_counterexample :
    (⟨1, "A", 100, 90, 120, "Target Hit", none, 0, some 5⟩ : TradeRow).status = "Target Hit" ∧
    trade_status ⟨1, "A", 100, 90, 120, "Target Hit", none, 0, some 5⟩ = "Pending" := by
  constructor
  · rfl
  · decide

/-- C1, amended: `trade_status` ignores the stored status entirely and
recomputes the status from `ltp`, `buy`, `sl`, `target` alone; a
terminal-status trade keeps its status only when the current price still
satisfies that status's price condition (`buy ≤ ltp` and `target ≤ ltp`
for "Target Hit"; `buy ≤ ltp < target` and `ltp ≤ sl` for
"Stoploss Hit"). -/
theorem C1_amended :
    (∀ (r : TradeRow) (s : String), trade_status { r with status := s } = trade_status r) ∧
    (∀ (r : TradeRow) (p : ℚ), r.ltp = some p → r.buy ≤ p → r.target ≤ p →
      trade_status r = "Target Hit") ∧
    (∀ (r : TradeRow) (p : ℚ), r.ltp = some p → r.buy ≤ p → p < r.target → p ≤ r.sl →
      trade_status r = "Stoploss Hit") := by
  refine ⟨fun r s => rfl, fun r p hp hb ht => ?_, fun r p hp hb ht hs => ?_⟩
  · simp only [trade_status, hp]
    rw [if_neg (not_lt.mpr hb), if_pos ht]
  · simp only [trade_status, hp]
    rw [if_neg (not_lt.mpr hb), if_neg (not_le.mpr ht), if_pos hs]

/-- C1, witness for the amended theorem at a concrete input. -/
theorem C1_amended_witness :
    trade_status ⟨1, "A", 100, 90, 120, "Target Hit", some 130, 0, some 1⟩ = "Target Hit" :=
  C1_amended.2.1 ⟨1, "A", 100, 90, 120, "Target Hit", some 130, 0, some 1⟩ 130 rfl
    (by norm_num) (by norm_num)

/-- C2: with the expected ordering `stoploss < buy`, a last price at or
below the stoploss is also below the buy price, so `trade_status`
returns "Pending" (its first branch) and never reaches the
"Stoploss Hit" branch: here the non-terminal trade
(buy 100, stoploss 90, target 120, status "Active") with last price 85
(85 ≤ 90 < 120) yields "Pending", where the claim requires
"Stoploss Hit". -/
theorem C2_code_eval :
    trade_status ⟨2, "B", 100, 90, 120, "Active", some 85, 1, none⟩ = "Pending" := by
  decide

/-- C3, counterexample: a trade with status "Active" whose last price
dips below the buy level is mapped by `trade_status` to "Pending" — the
code regresses active trades. -/
theorem C3_counterexample :
    (⟨3, "C", 50, 40, 60, "Active", some 30, 0, none⟩ : TradeRow).status = "Active" ∧
    trade_status ⟨3, "C", 50, 40, 60, "Active", some 30, 0, none⟩ = "Pending" := by
  constructor
  · rfl
  · decide

/-- C3, amended: `trade_status` does not consult the stored status; it
returns "Pending" exactly when the last price is absent or below `buy`.
For any trade (in particular one with status "Active") whose last price
is present and at least `buy`, the result is never "Pending"; but an
Active trade whose price is absent or dips below `buy` is sent back to
"Pending". -/
theorem C3_amended :
    ∀ (r : TradeRow) (p : ℚ), r.ltp = some p → r.buy ≤ p → trade_status r ≠ "Pending" := by
  intro r p hp hb
  simp only [trade_status, hp]
  rw [if_neg (not_lt.mpr hb)]
  split
  · decide
  · split <;> decide

/-- C3, witness for the amended theorem at a concrete input. -/
theorem C3_amended_witness :
    trade_status ⟨3, "C", 50, 40, 60, "Active", some 55, 0, none⟩ ≠ "Pending" :=
  C3_amended ⟨3, "C", 50, 40, 60, "Active", some 55, 0, none⟩ 55 rfl (by norm_num)

/-- C4, counterexample: a trade with status "Active" and NULL `ltp` is
mapped by `trade_status` to "Pending", not to its current status. -/
theorem C4_counterexample :
    (⟨4, "D", 10, 8, 15, "Active", none, 0, none⟩ : TradeRow).status = "Active" ∧
    trade_status ⟨4, "D", 10, 8, 15, "Active", none, 0, none⟩ = "Pending" := by
  constructor
  · rfl
  · decide

/-- C4, amended: when the last price is absent, `trade_status` returns
"Pending" regardless of the trade's current status (the current status
is preserved only when it happens to be "Pending" already). -/
theorem C4_amended :
    ∀ r : TradeRow, r.ltp = none → trade_status r = "Pending" := by
  intro r h
  simp only [trade_status, h]

/-- C4, witness for the amended theorem at a concrete input. -/
theorem C4_amended_witness :
    trade_status ⟨4, "D", 10, 8, 15, "Stoploss Hit", none, 0, some 3⟩ = "Pending" :=
  C4_amended ⟨4, "D", 10, 8, 15, "Stoploss Hit", none, 0, some 3⟩ rfl

/-- C5, counterexample: a trade already closed as "Target Hit"
(closed stamped at time 5) whose price has drifted back between the
stoploss and the target is re-opened by the status-update step: its
status changes to "Active". -/
theorem C5_counterexample :
    (⟨5, "E", 100, 90, 120, "Target Hit", some 110, 0, some 5⟩ : TradeRow).status = "Target Hit" ∧
    (⟨5, "E", 100, 90, 120, "Target Hit", some 110, 0, some 5⟩ : TradeRow).closed = some 5 ∧
    (statusStep 6 ⟨5, "E", 100, 90, 120, "Target Hit", some 110, 0, some 5⟩).status = "Active" := by
  refine ⟨rfl, rfl, ?_⟩
  decide

/-- C5, amended: the status-update step leaves a terminal-status trade
(status and `closed` stamp included) unchanged exactly when recomputing
`trade_status` on its current price yields the stored status again; a
price that no longer satisfies the terminal condition changes the
trade's status, so terminal states are not absorbing in the update
loop. -/
theorem C5_amended :
    ∀ (now : ℚ) (r : TradeRow), r.status = "Target Hit" ∨ r.status = "Stoploss Hit" →
      (statusStep now r = r ↔ trade_status r = r.status) := by
  intro now r _
  constructor
  · intro he
    have h1 : (statusStep now r).status = trade_status r := statusStep_status now r
    rw [he] at h1
    exact h1.symm
  · intro h
    exact statusStep_of_eq now r h

/-- C5, witness for the amended theorem at a concrete input. -/
theorem C5_amended_witness :
    statusStep 9 ⟨6, "F", 100, 90, 120, "Target Hit", some 130, 0, some 2⟩ =
      ⟨6, "F", 100, 90, 120, "Target Hit", some 130, 0, some 2⟩ :=
  (C5_amended 9 ⟨6, "F", 100, 90, 120, "Target Hit", some 130, 0, some 2⟩
    (Or.inl rfl)).mpr (by decide)

/-- C6, counterexample: Python's `int()` truncates toward zero, which
differs from the floor once the running capital has gone negative.
Replaying `c6row1` (buy 100, stoploss 99.5, target 0, closed as
"Target Hit") drives the capital from 100000 to -100000; at that capital
`position_size` gives `int(-1000/3) = -333`, but the floor claimed by the
spec is -334; the full two-trade replay records quantities
[2000, -333]. -/
theorem C6_counterexample :
    (replay START_CAPITAL [c6row1, c6row2]).2.map PerfRec.qty = [2000, -333] ∧
    replayCap START_CAPITAL [c6row1] = -100000 ∧
    position_size (-100000) c6row2.buy c6row2.sl = -333 ∧
    ⌊(-100000 : ℚ) * RISK_PER_TRADE / |c6row2.buy - c6row2.sl|⌋ = -334 := by
  have hps1 : position_size START_CAPITAL 100 (199/2) = 2000 := by
    norm_num [position_size, pyInt, START_CAPITAL, RISK_PER_TRADE,
      show |(1/2 : ℚ)| = 1/2 by norm_num]
  have hpnl1 : tradePnl START_CAPITAL c6row1 = -200000 := by
    simp only [tradePnl, c6row1, exit_price, hps1]
    norm_num
  have hcap : START_CAPITAL + tradePnl START_CAPITAL c6row1 = -100000 := by
    rw [hpnl1]
    norm_num [START_CAPITAL]
  have hps2 : position_size (-100000) 100 97 = -333 := by
    simp only [position_size, pyInt]
    rw [if_pos (by norm_num : |(100 : ℚ) - 97| ≠ 0),
      if_neg (by norm_num [RISK_PER_TRADE] :
        ¬ (0 : ℚ) ≤ -100000 * RISK_PER_TRADE / |(100 : ℚ) - 97|),
      show (-100000 : ℚ) * RISK_PER_TRADE / |(100 : ℚ) - 97| = -(1000/3) by
        norm_num [RISK_PER_TRADE],
      Int.ceil_neg]
    norm_num
  refine ⟨?_, ?_, ?_, ?_⟩
  · have hcap2 : START_CAPITAL + tradePnl START_CAPITAL
        (⟨1, "A", 100, 199/2, 0, "Target Hit", some 120, 0, some 1⟩ : TradeRow) = -100000 := by
      simpa only [c6row1] using hcap
    simp only [replay, List.map, mkRecord_qty, c6row1, c6row2]
    rw [hps1, hcap2, hps2]
  · simp only [replayCap]
    exact hcap
  · simpa only [c6row2] using hps2
  · simp only [c6row2]
    norm_num [RISK_PER_TRADE]

/-- C6, amended: for a nonnegative running capital the quantity is the
floor of `capital * riskFraction / |buy - stoploss|` when the per-share
risk is nonzero (in general `int()` truncates toward zero, which is the
floor only for nonnegative capital), and 0 when `buy = stoploss`;
capital is then increased by `(exitPrice - buy) * quantity`; the spec's
concrete example (capital 100000, risk 0.01, one trade buy 100,
stoploss 90, target 120 closed as "Target Hit") yields quantity 100,
pnl 2000, capital 102000 and R-multiple 2.0. -/
theorem C6_amended :
    (∀ capital buy sl : ℚ, 0 ≤ capital → |buy - sl| ≠ 0 →
      position_size capital buy sl = ⌊capital * RISK_PER_TRADE / |buy - sl|⌋) ∧
    (∀ capital buy sl : ℚ, |buy - sl| = 0 → position_size capital buy sl = 0) ∧
    (∀ (c : ℚ) (r : TradeRow) (rs : List TradeRow),
      replayCap c (r :: rs) =
        replayCap (c + (exit_price r - r.buy) * (position_size c r.buy r.sl : ℚ)) rs) ∧
    analyticsReplay [c6exRow] = (102000, [⟨"TCS", 100, 120, 2000, 102000, 2, 1⟩]) := by
  refine ⟨fun capital buy sl hc hne => ?_, fun capital buy sl h => ?_, fun c r rs => rfl, ?_⟩
  · simp only [position_size, pyInt]
    rw [if_pos hne, if_pos]
    exact div_nonneg (mul_nonneg hc (by norm_num [RISK_PER_TRADE])) (abs_nonneg _)
  · simp [position_size, h]
  · have hfilter :
        ([c6exRow].filter fun r => decide (r.status = "Target Hit" ∨ r.status = "Stoploss Hit")) =
          [c6exRow] := by decide
    have hps : position_size START_CAPITAL 100 90 = 100 := by
      norm_num [position_size, pyInt, START_CAPITAL, RISK_PER_TRADE]
    have hpnl : tradePnl START_CAPITAL c6exRow = 2000 := by
      simp only [tradePnl, c6exRow, exit_price, hps]
      norm_num
    have hrec : mkRecord START_CAPITAL c6exRow = ⟨"TCS", 100, 120, 2000, 102000, 2, 1⟩ := by
      simp only [mkRecord, c6exRow, exit_price, hps]
      norm_num [pyRound2, roundHalfEven, r_multiple, START_CAPITAL]
    simp only [analyticsReplay, sortByClosed, hfilter, List.foldr, insertByClosed, replay,
      hpnl, hrec]
    norm_num [START_CAPITAL]

/-- C6, witness for the amended theorem at a concrete input. -/
theorem C6_amended_witness :
    position_size 100000 100 90 = ⌊(100000 : ℚ) * RISK_PER_TRADE / |(100 : ℚ) - 90|⌋ :=
  C6_amended.1 100000 100 90 (by norm_num) (by norm_num)

/-- C7: a trade with `buy = stoploss` (zero per-share risk) gets
quantity 0 and raw P&L 0 wherever it occurs in the replay, so it
contributes nothing to the capital, and the replay completes normally,
producing one record per input trade. -/
theorem C7_zero_risk_guard :
    ∀ (capital : ℚ) (r : TradeRow) (pre post : List TradeRow), r.buy = r.sl →
      (mkRecord (replayCap capital pre) r).qty = 0 ∧
      (mkRecord (replayCap capital pre) r).pnl = 0 ∧
      tradePnl (replayCap capital pre) r = 0 ∧
      (replay capital (pre ++ r :: post)).2 =
        (replay capital pre).2 ++
          mkRecord (replayCap capital pre) r :: (replay (replayCap capital pre) post).2 ∧
      (replay capital (pre ++ r :: post)).2.length = (pre ++ r :: post).length := by
  intro capital r pre post h
  have hq : position_size (replayCap capital pre) r.buy r.sl = 0 := by
    simp [position_size, h]
  have hpnl : tradePnl (replayCap capital pre) r = 0 := by
    simp [tradePnl, hq]
  refine ⟨?_, ?_, hpnl, ?_, replay_length _ _⟩
  · simp [mkRecord, hq]
  · simp [mkRecord, hq, pyRound2_zero]
  · rw [replay_append]
    simp only [replay]
    rw [hpnl, add_zero]

/-- C7, witness at a concrete input: the zero-risk trade `c7row`
(buy = stoploss = 50) replayed alone from capital 100000. -/
theorem C7_zero_risk_guard_witness :
    (mkRecord (replayCap 100000 []) c7row).qty = 0 ∧
    (mkRecord (replayCap 100000 []) c7row).pnl = 0 ∧
    tradePnl (replayCap 100000 []) c7row = 0 ∧
    (replay 100000 ([] ++ c7row :: [])).2 =
      (replay 100000 []).2 ++
        mkRecord (replayCap 100000 []) c7row :: (replay (replayCap 100000 []) []).2 ∧
    (replay 100000 ([] ++ c7row :: [])).2.length = ([] ++ c7row :: []).length :=
  C7_zero_risk_guard 100000 c7row [] [] rfl

/-- C9: if the starting capital is strictly positive and every replayed
trade satisfies `stoploss < buy < target`, then the running capital
after every prefix of the replay stays strictly positive: a losing
trade's loss is `quantity * (buy - stoploss) ≤ 0.01 * capital` and a
winning trade's pnl is nonnegative. -/
theorem C9_capital_positive :
    ∀ (ts : List TradeRow) (c : ℚ), 0 < c →
      (∀ r ∈ ts, r.sl < r.buy ∧ r.buy < r.target) →
      ∀ i : ℕ, 0 < replayCap c (ts.take i) := by
  intro ts
  induction ts with
  | nil =>
    intro c hc _ i
    simpa [replayCap] using hc
  | cons r rs ih =>
    intro c hc hall i
    cases i with
    | zero => simpa [replayCap] using hc
    | succ n =>
      simp only [List.take_succ_cons, replayCap]
      exact ih (c + tradePnl c r)
        (replay_step_pos c r hc (hall r (List.mem_cons_self r rs)).1
          (hall r (List.mem_cons_self r rs)).2)
        (fun x hx => hall x (List.mem_cons_of_mem r hx)) n

/-- C9, witness at a concrete input: the one-trade replay of the spec's
example trade from capital 100000. -/
theorem C9_capital_positive_witness : 0 < replayCap 100000 ([c6exRow].take 1) :=
  C9_capital_positive [c6exRow] 100000 (by norm_num)
    (by
      intro r hr
      simp only [List.mem_singleton] at hr
      subst hr
      exact ⟨by norm_num [c6exRow], by norm_num [c6exRow]⟩) 1

/-- C10: the replay's running capital telescopes: after the first `i`
trades it equals `START_CAPITAL` plus the sum of the first `i` per-trade
pnl values, and the final capital equals `START_CAPITAL` plus the sum of
all pnl values. -/
theorem C10_capital_telescopes :
    ∀ (ts : List TradeRow) (i : ℕ),
      replayCap START_CAPITAL (ts.take i) =
        START_CAPITAL + ((replayPnls START_CAPITAL ts).take i).sum ∧
      (replay START_CAPITAL ts).1 = START_CAPITAL + (replayPnls START_CAPITAL ts).sum := by
  intro ts i
  constructor
  · rw [replayCap_eq_sum, replayPnls_take]
  · rw [replay_fst, replayCap_eq_sum]

end Track
